import Mathlib

/-!
Shallow embedding of the in-process event notification bus of the
Wonders backend (`src/routers/notifications.py`): the `NotificationEvent`
record, the `EventStore` (event log + subscription registry), and the
SSE streaming adapter `event_generator`.

Modelling conventions:
* `asyncio.Queue` objects are identified by a `Nat` id (Python object
  identity); the registry `subscribers` maps a user id to the list of
  queue ids registered for it (a Python `dict` preserving insertion
  order, keys unique).  Queue contents, where they matter (capacity /
  blocking), are a separate map from queue id to the queued events.
* the wall clock is passed in explicitly: `int(datetime.utcnow().timestamp()*1000)`
  becomes a `Nat` argument, `datetime.utcnow().isoformat()` a `String`
  argument.
* Python `str(n)` for a nonnegative int is the decimal rendering `decStr`.
-/

/-- The `NotificationType` enum, notifications.py lines 19-25. -/
inductive NotificationType where
  | message_received
  | conversation_updated
  | user_joined
  | user_left
  | system_notification
deriving DecidableEq

/-- The string value of each enum member (the `str` mixin value used by
Python `format`/f-strings). -/
def NotificationType.value : NotificationType → String
  | .message_received => "message_received"
  | .conversation_updated => "conversation_updated"
  | .user_joined => "user_joined"
  | .user_left => "user_left"
  | .system_notification => "system_notification"

/-- Decimal digit character, `0 ↦ '0', …, 9 ↦ '9'`. -/
def decChar (d : Nat) : Char := Char.ofNat (48 + d)

/-- Decimal rendering of a natural number, as Python `str(n)` /
an f-string renders a nonnegative `int`. -/
def decStr (n : Nat) : String :=
  if n = 0 then "0" else (((Nat.digits 10 n).map decChar).reverse).asString

/-- Model of `NotificationEvent`, notifications.py lines 27-39.  `data` is the
producer-defined payload (modelled as a string-to-string mapping),
`user_id` is the optional recipient (`None` = broadcast),
`timestampMs` is the clock sample `int(datetime.utcnow().timestamp()*1000)`
taken at construction, `timestamp` the iso-format creation time. -/
structure NotificationEvent where
  event_type : NotificationType
  data : List (String × String)
  user_id : Option String
  conversation_id : Option String
  timestamp : String
  timestampMs : Nat
deriving DecidableEq

/-- The id assignment `self.event_id = f"{event_type}_{int(datetime.utcnow().timestamp() * 1000)}"`,
notifications.py line 39. -/
def NotificationEvent.event_id (e : NotificationEvent) : String :=
  e.event_type.value ++ "_" ++ decStr e.timestampMs

/-- The subscription registry `self.subscribers : Dict[str, List[asyncio.Queue]]`:
an insertion-ordered map from user id to the queue ids registered for it. -/
abbrev Registry : Type := List (String × List Nat)

/-- Python dict assignment `d[k] = v`: replace the value of an existing
key in place, otherwise append the new key at the end (insertion order). -/
def setSubs : Registry → String → List Nat → Registry
  | [], uid, qs => [(uid, qs)]
  | (k, v) :: rest, uid, qs =>
      if k = uid then (k, qs) :: rest else (k, v) :: setSubs rest uid qs

/-- Python `del d[k]`: drop the entry with key `k`. -/
def delSubs : Registry → String → Registry
  | [], _ => []
  | (k, v) :: rest, uid => if k = uid then rest else (k, v) :: delSubs rest uid

/-- Python `k in d` / `d.get(k)`: first value stored under key `uid`. -/
def lookupSubs (subs : Registry) (uid : String) : Option (List Nat) :=
  match subs with
  | [] => none
  | (k, v) :: rest => if k = uid then some v else lookupSubs rest uid

/-- Registry part of `EventStore.subscribe`, notifications.py lines 74-81:
ensure the key exists, then append a fresh queue (id `q`, capacity 100). -/
def subscribeReg (subs : Registry) (user_id : String) (q : Nat) : Registry :=
  match lookupSubs subs user_id with
  | none => setSubs subs user_id [q]
  | some qs => setSubs subs user_id (qs ++ [q])

/-- Registry part of `EventStore.unsubscribe`, notifications.py lines 83-91:
if the key exists, `list.remove` the queue (first occurrence; a
`ValueError` when absent is swallowed, skipping the emptiness check),
and delete the key when its list becomes empty. -/
def unsubscribeReg (subs : Registry) (user_id : String) (q : Nat) : Registry :=
  match lookupSubs subs user_id with
  | none => subs
  | some qs =>
      if q ∈ qs then
        if qs.erase q = [] then delSubs subs user_id
        else setSubs subs user_id (qs.erase q)
      else subs

/-- Routing key `user_id = event.user_id or "global"`, notifications.py line 66:
Python `or` takes the right operand when the left is falsy
(`None` or the empty string). -/
def routingKey (e : NotificationEvent) : String :=
  match e.user_id with
  | none => "global"
  | some s => if s = "" then "global" else s

/-- The queues the fan-out loop of `publish_event` (lines 66-72) iterates
over: the queues registered under the routing key, none when the key is
absent. -/
def fanOutTargets (subs : Registry) (e : NotificationEvent) : List Nat :=
  match lookupSubs subs (routingKey e) with
  | none => []
  | some qs => qs

/-- Capacity of a subscriber channel: `asyncio.Queue(maxsize=100)`,
notifications.py line 79. -/
def queueMaxsize : Nat := 100

/-- Whether `await queue.put(event)` on a bounded `asyncio.Queue` suspends the
caller iff the queue is full (it does not raise `QueueFull`; only
`put_nowait` does), notifications.py line 70. -/
def putWaits (items : List NotificationEvent) : Bool :=
  queueMaxsize ≤ items.length

/-- Whether `publish_event` suspends while fanning out `e`: the `for`
loop awaits `queue.put` on each targeted queue in turn, so the publisher
suspends as soon as it reaches a full queue.  `heap` maps a queue id to
the queue's current contents. -/
def publishSuspends (heap : Nat → List NotificationEvent)
    (subs : Registry) (e : NotificationEvent) : Bool :=
  (fanOutTargets subs e).any fun q => putWaits (heap q)

/-- Log part of `EventStore.publish_event`, notifications.py lines 59-63:
`self.events.append(event)`, then keep only the last 1000
(`self.events = self.events[-1000:]`) when the length exceeds 1000. -/
def appendTrim (events : List NotificationEvent) (e : NotificationEvent) :
    List NotificationEvent :=
  if (events ++ [e]).length > 1000 then
    (events ++ [e]).drop ((events ++ [e]).length - 1000)
  else events ++ [e]

/-- Global event store state: the event log `self.events` and the
subscription registry `self.subscribers`, notifications.py lines 52-55. -/
structure EventStore where
  events : List NotificationEvent
  subscribers : Registry

/-- Model of `EventStore.publish_event`, notifications.py lines 57-72: append to
the log (with FIFO trimming), then put the event on each queue under the
routing key.  The queue contents live in the separate `heap`;
the state-visible effect is the log update (the registry is unchanged). -/
def EventStore.publish_event (s : EventStore) (e : NotificationEvent) : EventStore :=
  { s with events := appendTrim s.events e }

/-- Model of `EventStore.subscribe`, notifications.py lines 74-81: register a fresh
queue (id `q`) under `user_id` and return it. -/
def EventStore.subscribe (s : EventStore) (user_id : String) (q : Nat) :
    Nat × EventStore :=
  (q, { s with subscribers := subscribeReg s.subscribers user_id q })

/-- Model of `EventStore.unsubscribe`, notifications.py lines 83-91. -/
def EventStore.unsubscribe (s : EventStore) (user_id : String) (q : Nat) : EventStore :=
  { s with subscribers := unsubscribeReg s.subscribers user_id q }

/-- Filter of `get_recent_events`, notifications.py line 95:
`e.user_id == user_id or e.user_id is None`. -/
def matchesRecipient (user_id : String) (e : NotificationEvent) : Bool :=
  e.user_id == some user_id || e.user_id == none

/-- Python slice `l[-limit:]` for an `int` limit: for `limit > 0` the
start index is `max 0 (len - limit)`; for `limit ≤ 0` the start index is
the nonnegative `-limit` (so `l[-0:]` is all of `l`). -/
def pySliceLast {α : Type} (l : List α) (limit : Int) : List α :=
  if 0 < limit then l.drop (l.length - limit.toNat) else l.drop (-limit).toNat

/-- Model of `EventStore.get_recent_events`, notifications.py lines 93-96: filter
the log to events for `user_id` or broadcast, then take `user_events[-limit:]`. -/
def EventStore.get_recent_events (s : EventStore) (user_id : String)
    (limit : Int) : List NotificationEvent :=
  let user_events := s.events.filter (matchesRecipient user_id)
  pySliceLast user_events limit

/-!
The SSE streaming adapter `stream_notifications.event_generator`,
notifications.py lines 130-149.  One connection is modelled by the trace
of occurrences at its `await` point: an event arriving on the queue
within the 30 s window, the 30 s timeout elapsing (`asyncio.TimeoutError`),
an exception from the loop body (logged, then `break`), or the client
disconnecting (the cancellation / `GeneratorExit` raised at the `await`
or `yield`, which propagates out of the `while`).  In every case Python
runs the `finally` block, which unsubscribes the queue.
-/

/-- One occurrence at the adapter's suspension point. -/
inductive StreamStep where
  | ev (e : NotificationEvent)
  | timeout (ts : String)
  | streamErr
  | disconnect
deriving DecidableEq

/-- Whether a step ends the `while True` loop: a body exception hits the
`except Exception` arm and breaks; a client disconnect raises through the
generator and leaves the loop. -/
def StreamStep.terminal : StreamStep → Bool
  | .ev _ => false
  | .timeout _ => false
  | .streamErr => true
  | .disconnect => true

/-- Rendering by `json.dumps` of the heartbeat dict
`{'type': 'heartbeat', 'timestamp': <iso>}`, notifications.py line 144. -/
def heartbeatJson (ts : String) : String :=
  "\x7b\"type\": \"heartbeat\", \"timestamp\": \"" ++ ts ++ "\"\x7d"

/-- Rendering by `json.dumps` of the connection acknowledgement
`{'type': 'connected', 'user_id': <uid>}`, notifications.py line 134. -/
def connectedJson (uid : String) : String :=
  "\x7b\"type\": \"connected\", \"user_id\": \"" ++ uid ++ "\"\x7d"

/-- A mapping rendered as a JSON object of string values. -/
def jsonStrObj (kvs : List (String × String)) : String :=
  "\x7b" ++ String.intercalate ", "
    (kvs.map fun kv => "\"" ++ kv.1 ++ "\": \"" ++ kv.2 ++ "\"") ++ "\x7d"

/-- An optional string field as JSON (`None` serializes as `null`). -/
def jsonOptStr : Option String → String
  | none => "null"
  | some s => "\"" ++ s ++ "\""

/-- Rendering `json.dumps(event.to_dict())`, notifications.py lines 41-49 and 140:
the six fields in `to_dict`'s key order. -/
def NotificationEvent.toJson (e : NotificationEvent) : String :=
  "\x7b\"event_id\": \"" ++ e.event_id ++ "\", \"event_type\": \"" ++
    e.event_type.value ++ "\", \"data\": " ++ jsonStrObj e.data ++
    ", \"user_id\": " ++ jsonOptStr e.user_id ++ ", \"conversation_id\": " ++
    jsonOptStr e.conversation_id ++ ", \"timestamp\": \"" ++ e.timestamp ++
    "\"\x7d"

/-- An SSE frame `data: <payload>\n\n`. -/
def sseLine (payload : String) : String := "data: " ++ payload ++ "\n\n"

/-- The `while True` loop of `event_generator`, lines 136-147, run over a
trace: returns the yielded frames and whether the loop was left (`true`)
or the trace ended with the adapter still waiting (`false`).  An arriving
event is forwarded as a frame, a timeout yields a heartbeat frame and
the loop continues; an error or disconnect yields nothing further. -/
def runLoop : List StreamStep → List String × Bool
  | [] => ([], false)
  | .ev e :: rest => (sseLine e.toJson :: (runLoop rest).1, (runLoop rest).2)
  | .timeout ts :: rest =>
      (sseLine (heartbeatJson ts) :: (runLoop rest).1, (runLoop rest).2)
  | .streamErr :: _ => ([], true)
  | .disconnect :: _ => ([], true)

/-- Frames yielded by one complete run of `event_generator`
(lines 130-149): the connected acknowledgement, then the loop's frames. -/
def event_generator_output (user_id : String) (steps : List StreamStep) :
    List String :=
  sseLine (connectedJson user_id) :: (runLoop steps).1

/-- Registry effect of one complete run of `event_generator`: `subscribe`
on entry (line 131), and — because the `finally` block runs on every way
out of the generator (loop `break`, exception, generator close on client
disconnect) — `unsubscribe` at the end (lines 148-149).  The loop body
itself never touches the registry. -/
def event_generator_final (subs : Registry) (user_id : String) (q : Nat)
    (_steps : List StreamStep) : Registry :=
  unsubscribeReg (subscribeReg subs user_id q) user_id q

/-- All queue ids registered anywhere in the registry. -/
def allQueues (subs : Registry) : List Nat :=
  (subs.map Prod.snd).flatten

/-! ### Lemmas about the event log -/

lemma appendTrim_eq_drop (acc : List NotificationEvent) (e : NotificationEvent) :
    appendTrim acc e = (acc ++ [e]).drop ((acc ++ [e]).length - 1000) := by
  by_cases h : (acc ++ [e]).length > 1000
  · rw [appendTrim, if_pos h]
  · rw [appendTrim, if_neg h]
    have h0 : (acc ++ [e]).length - 1000 = 0 := by omega
    rw [h0, List.drop_zero]

lemma appendTrim_length_le (acc : List NotificationEvent) (e : NotificationEvent) :
    (appendTrim acc e).length ≤ 1000 := by
  rw [appendTrim_eq_drop, List.length_drop]
  omega

lemma foldl_appendTrim (es : List NotificationEvent) :
    ∀ acc : List NotificationEvent, acc.length ≤ 1000 →
      es.foldl appendTrim acc = (acc ++ es).drop ((acc ++ es).length - 1000) := by
  induction es with
  | nil =>
      intro acc h
      have h0 : acc.length - 1000 = 0 := by omega
      simp [h0]
  | cons e rest ih =>
      intro acc h
      rw [List.foldl_cons, ih (appendTrim acc e) (appendTrim_length_le acc e),
        appendTrim_eq_drop]
      have hx : acc ++ e :: rest = (acc ++ [e]) ++ rest := by simp
      rw [hx]
      have hk : (acc ++ [e]).length - 1000 ≤ (acc ++ [e]).length := by omega
      rw [← List.drop_append_of_le_length hk, List.drop_drop]
      have harr : (acc ++ [e]).length - 1000 +
          ((List.drop ((acc ++ [e]).length - 1000) (acc ++ [e] ++ rest)).length - 1000) =
          (acc ++ [e] ++ rest).length - 1000 := by
        simp only [List.length_drop, List.length_append, List.length_cons,
          List.length_nil]
        omega
      rw [harr]

lemma foldl_publish_events (es : List NotificationEvent) :
    ∀ s : EventStore,
      (es.foldl EventStore.publish_event s).events = es.foldl appendTrim s.events := by
  induction es with
  | nil => intro s; rfl
  | cons e rest ih => intro s; rw [List.foldl_cons, List.foldl_cons, ih]; rfl

/-- C4: starting from an empty log, after each sequence of `Publish` calls
the event log holds at most 1000 events, and it is exactly the most recent
1000 published events in publish order (all of them while no more than
1000 were published): the first `N - 1000` published events have been
evicted, oldest first. -/
theorem publish_log_bounded_fifo (subs : Registry) (es : List NotificationEvent) :
    ((es.foldl EventStore.publish_event ⟨[], subs⟩).events).length ≤ 1000 ∧
    (es.foldl EventStore.publish_event ⟨[], subs⟩).events =
      es.drop (es.length - 1000) := by
  have h := foldl_appendTrim es [] (by simp)
  simp only [List.nil_append] at h
  rw [foldl_publish_events]
  refine ⟨?_, h⟩
  rw [h, List.length_drop]
  omega

/-! ### Lemmas about `get_recent_events` -/

/-- C5: for a positive `limit`, `get_recent_events` returns, in arrival
order, the last `limit` events of the log whose recipient is `user_id` or
absent (broadcast): it is the suffix of the filtered log obtained by
dropping all but the last `limit` matches, its length is
`min limit (number of matches)`, and it is empty when no event matches.
The operation reads the store without returning a modified one (pure read). -/
theorem get_recent_events_spec (s : EventStore) (user_id : String) (limit : Int)
    (h : 1 ≤ limit) :
    s.get_recent_events user_id limit =
      (s.events.filter (matchesRecipient user_id)).drop
        ((s.events.filter (matchesRecipient user_id)).length - limit.toNat) ∧
    (s.get_recent_events user_id limit).length =
      min limit.toNat (s.events.filter (matchesRecipient user_id)).length ∧
    (s.get_recent_events user_id limit) <:+ s.events.filter (matchesRecipient user_id) ∧
    (s.events.filter (matchesRecipient user_id) = [] →
      s.get_recent_events user_id limit = []) := by
  have hpos : 0 < limit := h
  have heq : s.get_recent_events user_id limit =
      (s.events.filter (matchesRecipient user_id)).drop
        ((s.events.filter (matchesRecipient user_id)).length - limit.toNat) := by
    unfold EventStore.get_recent_events pySliceLast
    simp [hpos]
  refine ⟨heq, ?_, ?_, ?_⟩
  · rw [heq, List.length_drop]
    have : 1 ≤ limit.toNat := by omega
    omega
  · rw [heq]
    exact List.drop_suffix _ _
  · intro hnil
    rw [heq, hnil]
    simp

/-- Witness for C5 at a concrete store: one targeted event, limit 10. -/
theorem get_recent_events_spec_witness :
    (1 : Int) ≤ 10 ∧
    ((EventStore.mk
        [⟨.message_received, [("text", "hi")], some "u1", none, "t0", 17⟩] []).get_recent_events
          "u1" 10 =
      (([⟨.message_received, [("text", "hi")], some "u1", none, "t0", 17⟩] :
          List NotificationEvent).filter (matchesRecipient "u1")).drop
        ((([⟨.message_received, [("text", "hi")], some "u1", none, "t0", 17⟩] :
          List NotificationEvent).filter (matchesRecipient "u1")).length - (10 : Int).toNat) ∧
      ((EventStore.mk
        [⟨.message_received, [("text", "hi")], some "u1", none, "t0", 17⟩] []).get_recent_events
          "u1" 10).length =
        min (10 : Int).toNat
          (([⟨.message_received, [("text", "hi")], some "u1", none, "t0", 17⟩] :
            List NotificationEvent).filter (matchesRecipient "u1")).length ∧
      ((EventStore.mk
        [⟨.message_received, [("text", "hi")], some "u1", none, "t0", 17⟩] []).get_recent_events
          "u1" 10) <:+
        ([⟨.message_received, [("text", "hi")], some "u1", none, "t0", 17⟩] :
          List NotificationEvent).filter (matchesRecipient "u1") ∧
      (([⟨.message_received, [("text", "hi")], some "u1", none, "t0", 17⟩] :
          List NotificationEvent).filter (matchesRecipient "u1") = [] →
        (EventStore.mk
          [⟨.message_received, [("text", "hi")], some "u1", none, "t0", 17⟩] []).get_recent_events
            "u1" 10 = [])) :=
  ⟨by decide,
   get_recent_events_spec
     (EventStore.mk [⟨.message_received, [("text", "hi")], some "u1", none, "t0", 17⟩] [])
     "u1" 10 (by decide)⟩

/-- C9: `get_recent_events` with `limit = 0` returns the entire filtered
history (Python `l[-0:]` is the whole list), and with a negative limit
`-k` it returns all matching events except the first `k`. -/
theorem get_recent_events_zero_and_negative (s : EventStore) (user_id : String) :
    s.get_recent_events user_id 0 = s.events.filter (matchesRecipient user_id) ∧
    ∀ k : Nat, s.get_recent_events user_id (-(k : Int)) =
      (s.events.filter (matchesRecipient user_id)).drop k := by
  constructor
  · unfold EventStore.get_recent_events pySliceLast
    norm_num
  · intro k
    unfold EventStore.get_recent_events pySliceLast
    have hneg : ¬ (0 : Int) < -(k : Int) := by omega
    simp only [hneg, if_false, neg_neg, Int.toNat_natCast]

/-! ### Lemmas about the subscription registry -/

lemma lookupSubs_setSubs_self (subs : Registry) (uid : String) (v : List Nat) :
    lookupSubs (setSubs subs uid v) uid = some v := by
  induction subs with
  | nil => simp [setSubs, lookupSubs]
  | cons p rest ih =>
      by_cases h : p.1 = uid
      · simp [setSubs, lookupSubs, h]
      · simp [setSubs, lookupSubs, h, ih]

lemma lookupSubs_setSubs_ne (subs : Registry) (uid k : String) (v : List Nat)
    (h : k ≠ uid) : lookupSubs (setSubs subs uid v) k = lookupSubs subs k := by
  have huk : ¬ uid = k := fun he => h he.symm
  induction subs with
  | nil => simp [setSubs, lookupSubs, huk]
  | cons p rest ih =>
      by_cases hp : p.1 = uid
      · have hpk : ¬ p.1 = k := fun he => h (hp ▸ he).symm
        simp [setSubs, lookupSubs, hp, hpk, huk]
      · by_cases hk : p.1 = k
        · simp [setSubs, lookupSubs, hp, hk, h]
        · simp [setSubs, lookupSubs, hp, hk, ih]

lemma lookupSubs_delSubs_ne (subs : Registry) (uid k : String)
    (h : k ≠ uid) : lookupSubs (delSubs subs uid) k = lookupSubs subs k := by
  have huk : ¬ uid = k := fun he => h he.symm
  induction subs with
  | nil => simp [delSubs, lookupSubs]
  | cons p rest ih =>
      by_cases hp : p.1 = uid
      · have hpk : ¬ p.1 = k := fun he => h (hp ▸ he).symm
        simp [delSubs, lookupSubs, hp, hpk, huk]
      · by_cases hk : p.1 = k
        · simp [delSubs, lookupSubs, hp, hk, h]
        · simp [delSubs, lookupSubs, hp, hk, ih]

lemma lookupSubs_delSubs_self (subs : Registry) (uid : String)
    (h : (subs.map Prod.fst).Nodup) :
    lookupSubs (delSubs subs uid) uid = none := by
  induction subs with
  | nil => simp [delSubs, lookupSubs]
  | cons p rest ih =>
      simp only [List.map_cons, List.nodup_cons] at h
      by_cases hp : p.1 = uid
      · subst hp
        have : ∀ r : Registry, p.1 ∉ r.map Prod.fst → lookupSubs r p.1 = none := by
          intro r
          induction r with
          | nil => intro _; rfl
          | cons q rr ihr =>
              intro hq
              simp only [List.map_cons, List.mem_cons, not_or] at hq
              have : ¬ q.1 = p.1 := fun he => hq.1 he.symm
              simp [lookupSubs, this, ihr hq.2]
        simp only [delSubs, if_pos rfl]
        exact this rest h.1
      · simp only [delSubs, hp, if_false, lookupSubs, ih h.2]

lemma delSubs_of_lookup_none (subs : Registry) (uid : String)
    (h : lookupSubs subs uid = none) : delSubs subs uid = subs := by
  induction subs with
  | nil => rfl
  | cons p rest ih =>
      by_cases hp : p.1 = uid
      · simp [lookupSubs, hp] at h
      · simp only [lookupSubs, hp, if_false] at h
        simp [delSubs, hp, ih h]

lemma delSubs_setSubs (subs : Registry) (uid : String) (v : List Nat) :
    delSubs (setSubs subs uid v) uid = delSubs subs uid := by
  induction subs with
  | nil => simp [setSubs, delSubs]
  | cons p rest ih =>
      by_cases hp : p.1 = uid
      · simp [setSubs, delSubs, hp]
      · simp [setSubs, delSubs, hp, ih]

lemma setSubs_setSubs (subs : Registry) (uid : String) (v w : List Nat) :
    setSubs (setSubs subs uid v) uid w = setSubs subs uid w := by
  induction subs with
  | nil => simp [setSubs]
  | cons p rest ih =>
      by_cases hp : p.1 = uid
      · simp [setSubs, hp]
      · simp [setSubs, hp, ih]

lemma mem_allQueues_iff (subs : Registry) (x : Nat) :
    x ∈ allQueues subs ↔ ∃ p ∈ subs, x ∈ p.2 := by
  simp only [allQueues, List.mem_flatten, List.mem_map]
  constructor
  · rintro ⟨l, ⟨p, hp, rfl⟩, hx⟩
    exact ⟨p, hp, hx⟩
  · rintro ⟨p, hp, hx⟩
    exact ⟨p.2, ⟨p, hp, rfl⟩, hx⟩

lemma mem_setSubs (subs : Registry) (uid : String) (v : List Nat)
    (p : String × List Nat) (h : p ∈ setSubs subs uid v) :
    p = (uid, v) ∨ p ∈ subs := by
  induction subs with
  | nil =>
      simp only [setSubs, List.mem_singleton] at h
      exact Or.inl h
  | cons q rest ih =>
      by_cases hq : q.1 = uid
      · simp only [setSubs, if_pos hq, List.mem_cons] at h
        rcases h with h | h
        · exact Or.inl (by rw [h, hq])
        · exact Or.inr (List.mem_cons_of_mem _ h)
      · simp only [setSubs, if_neg hq, List.mem_cons] at h
        rcases h with h | h
        · exact Or.inr (List.mem_cons.2 (Or.inl h))
        · rcases ih h with h' | h'
          · exact Or.inl h'
          · exact Or.inr (List.mem_cons_of_mem _ h')

lemma mem_delSubs (subs : Registry) (uid : String)
    (p : String × List Nat) (h : p ∈ delSubs subs uid) : p ∈ subs := by
  induction subs with
  | nil => exact absurd h (by simp [delSubs])
  | cons q rest ih =>
      by_cases hq : q.1 = uid
      · simp only [delSubs, if_pos hq] at h
        exact List.mem_cons_of_mem _ h
      · simp only [delSubs, if_neg hq, List.mem_cons] at h
        rcases h with h | h
        · exact List.mem_cons.2 (Or.inl h)
        · exact List.mem_cons_of_mem _ (ih h)

lemma allQueues_setSubs (subs : Registry) (uid : String) (v : List Nat)
    (x : Nat) (h : x ∈ allQueues (setSubs subs uid v)) :
    x ∈ v ∨ x ∈ allQueues subs := by
  rcases (mem_allQueues_iff _ _).1 h with ⟨p, hp, hx⟩
  rcases mem_setSubs subs uid v p hp with h' | h'
  · exact Or.inl (by rw [h'] at hx; exact hx)
  · exact Or.inr ((mem_allQueues_iff _ _).2 ⟨p, h', hx⟩)

lemma allQueues_delSubs (subs : Registry) (uid : String)
    (x : Nat) (h : x ∈ allQueues (delSubs subs uid)) : x ∈ allQueues subs := by
  rcases (mem_allQueues_iff _ _).1 h with ⟨p, hp, hx⟩
  exact (mem_allQueues_iff _ _).2 ⟨p, mem_delSubs subs uid p hp, hx⟩

lemma lookupSubs_mem_allQueues (subs : Registry) (uid : String)
    (qs : List Nat) (h : lookupSubs subs uid = some qs) (x : Nat) (hx : x ∈ qs) :
    x ∈ allQueues subs := by
  induction subs with
  | nil => simp [lookupSubs] at h
  | cons p rest ih =>
      by_cases hp : p.1 = uid
      · simp only [lookupSubs, if_pos hp, Option.some_inj] at h
        exact (mem_allQueues_iff _ _).2 ⟨p, List.mem_cons_self _ _, h ▸ hx⟩
      · simp only [lookupSubs, if_neg hp] at h
        rcases (mem_allQueues_iff _ _).1 (ih h) with ⟨r, hr, hxr⟩
        exact (mem_allQueues_iff _ _).2 ⟨r, List.mem_cons_of_mem _ hr, hxr⟩

lemma subscribeReg_none (subs : Registry) (uid : String) (q : Nat)
    (h : lookupSubs subs uid = none) :
    subscribeReg subs uid q = setSubs subs uid [q] := by
  unfold subscribeReg
  rw [h]

lemma subscribeReg_some (subs : Registry) (uid : String) (q : Nat)
    (qs : List Nat) (h : lookupSubs subs uid = some qs) :
    subscribeReg subs uid q = setSubs subs uid (qs ++ [q]) := by
  unfold subscribeReg
  rw [h]

lemma unsubscribeReg_none (subs : Registry) (uid : String) (q : Nat)
    (h : lookupSubs subs uid = none) : unsubscribeReg subs uid q = subs := by
  unfold unsubscribeReg
  rw [h]

lemma unsubscribeReg_not_mem (subs : Registry) (uid : String) (q : Nat)
    (qs : List Nat) (h : lookupSubs subs uid = some qs) (hq : q ∉ qs) :
    unsubscribeReg subs uid q = subs := by
  unfold unsubscribeReg
  rw [h]
  simp [hq]

lemma unsubscribeReg_mem (subs : Registry) (uid : String) (q : Nat)
    (qs : List Nat) (h : lookupSubs subs uid = some qs) (hq : q ∈ qs) :
    unsubscribeReg subs uid q =
      if qs.erase q = [] then delSubs subs uid
      else setSubs subs uid (qs.erase q) := by
  unfold unsubscribeReg
  rw [h]
  simp [hq]

lemma lookupSubs_subscribeReg_ne (subs : Registry) (uid : String) (q : Nat)
    (k : String) (h : k ≠ uid) :
    lookupSubs (subscribeReg subs uid q) k = lookupSubs subs k := by
  unfold subscribeReg
  cases lookupSubs subs uid with
  | none => exact lookupSubs_setSubs_ne subs uid k _ h
  | some qs => exact lookupSubs_setSubs_ne subs uid k _ h

lemma routingKey_of_none (e : NotificationEvent) (h : e.user_id = none) :
    routingKey e = "global" := by
  unfold routingKey
  rw [h]

lemma routingKey_of_some (e : NotificationEvent) (s₀ : String)
    (h : e.user_id = some s₀) :
    routingKey e = if s₀ = "" then "global" else s₀ := by
  unfold routingKey
  rw [h]

lemma fanOutTargets_eq_getD (subs : Registry) (e : NotificationEvent) :
    fanOutTargets subs e = (lookupSubs subs (routingKey e)).getD [] := by
  unfold fanOutTargets
  cases lookupSubs subs (routingKey e) <;> rfl

lemma mem_lookup_getD_allQueues (subs : Registry) (k : String) (x : Nat)
    (h : x ∈ (lookupSubs subs k).getD []) : x ∈ allQueues subs := by
  cases h' : lookupSubs subs k with
  | none => rw [h'] at h; exact absurd h (by simp)
  | some qs =>
      rw [h'] at h
      exact lookupSubs_mem_allQueues subs k qs h' x h

/-- C10: an event published with `recipient = ""` is routed as a broadcast
(`event.user_id or "global"` treats the empty string as falsy): its fan-out
targets are exactly the channels registered under the `"global"` key, not
those under `""`; yet the log filter of `get_recent_events` compares
recipients with equality, so `Snapshot("", …)` does match such an event. -/
theorem empty_string_recipient_is_broadcast (e : NotificationEvent)
    (subs : Registry) (s : EventStore) (h : e.user_id = some "") :
    routingKey e = "global" ∧
    fanOutTargets subs e = (lookupSubs subs "global").getD [] ∧
    matchesRecipient "" e = true ∧
    (e ∈ s.events → e ∈ s.events.filter (matchesRecipient "")) := by
  have hr : routingKey e = "global" := by
    rw [routingKey_of_some e "" h]
    simp
  refine ⟨hr, ?_, ?_, ?_⟩
  · rw [fanOutTargets_eq_getD, hr]
  · simp [matchesRecipient, h]
  · intro hm
    exact List.mem_filter.2 ⟨hm, by simp [matchesRecipient, h]⟩

/-- Witness for C10 at a concrete event, registry and store. -/
theorem empty_string_recipient_is_broadcast_witness :
    (⟨.system_notification, [], some "", none, "t0", 3⟩ :
        NotificationEvent).user_id = some "" ∧
    (routingKey ⟨.system_notification, [], some "", none, "t0", 3⟩ = "global" ∧
      fanOutTargets [("", [7]), ("global", [3])]
          ⟨.system_notification, [], some "", none, "t0", 3⟩ =
        (lookupSubs [("", [7]), ("global", [3])] "global").getD [] ∧
      matchesRecipient "" ⟨.system_notification, [], some "", none, "t0", 3⟩ = true ∧
      (⟨.system_notification, [], some "", none, "t0", 3⟩ ∈
          (EventStore.mk [⟨.system_notification, [], some "", none, "t0", 3⟩]
            []).events →
        ⟨.system_notification, [], some "", none, "t0", 3⟩ ∈
          (EventStore.mk [⟨.system_notification, [], some "", none, "t0", 3⟩]
            []).events.filter (matchesRecipient ""))) :=
  ⟨rfl,
   empty_string_recipient_is_broadcast
     ⟨.system_notification, [], some "", none, "t0", 3⟩
     [("", [7]), ("global", [3])]
     (EventStore.mk [⟨.system_notification, [], some "", none, "t0", 3⟩] []) rfl⟩

/-- C1 counterexample: `Subscribe("u1")` registers channel `0`; a broadcast
publish (`recipient` absent) fans out to the channels under the synthetic
`"global"` key only, which do not include channel `0` — the channel
receives nothing, contrary to the claim that a broadcast is delivered to
every channel registered under any specific recipient. -/
theorem broadcast_skips_user_channels_counterexample :
    lookupSubs (subscribeReg [] "u1" 0) "u1" = some [0] ∧
    fanOutTargets (subscribeReg [] "u1" 0)
      ⟨.system_notification, [], none, none, "t1", 1⟩ = [] ∧
    ¬ (0 ∈ fanOutTargets (subscribeReg [] "u1" 0)
        ⟨.system_notification, [], none, none, "t1", 1⟩) := by
  refine ⟨by decide, by decide, by decide⟩

/-- C1 (amended): a channel registered by `Subscribe(u1)` receives neither
a publish targeted at a different recipient `u2` nor a broadcast publish;
fan-out consults only the routing key — the exact recipient for a targeted
event, the synthetic `"global"` key for a broadcast — so a broadcast
reaches exactly the channels registered under `"global"`. -/
theorem fanout_delivers_to_routing_key_only (subs : Registry) (q : Nat)
    (u1 u2 : String) (e eB : NotificationEvent)
    (hq : q ∉ allQueues subs) (h12 : u1 ≠ u2) (h1g : u1 ≠ "global")
    (he : e.user_id = some u2) (heB : eB.user_id = none) :
    q ∉ fanOutTargets (subscribeReg subs u1 q) e ∧
    q ∉ fanOutTargets (subscribeReg subs u1 q) eB ∧
    fanOutTargets (subscribeReg subs u1 q) eB =
      (lookupSubs (subscribeReg subs u1 q) "global").getD [] := by
  have hrkB : routingKey eB = "global" := routingKey_of_none eB heB
  have hrk : routingKey e ≠ u1 := by
    rw [routingKey_of_some e u2 he]
    by_cases h0 : u2 = ""
    · rw [if_pos h0]
      exact fun hh => h1g hh.symm
    · rw [if_neg h0]
      exact fun hh => h12 hh.symm
  have hrkB' : routingKey eB ≠ u1 := by
    rw [hrkB]
    exact fun hh => h1g hh.symm
  refine ⟨?_, ?_, ?_⟩
  · intro hmem
    rw [fanOutTargets_eq_getD,
      lookupSubs_subscribeReg_ne subs u1 q _ hrk] at hmem
    exact hq (mem_lookup_getD_allQueues subs _ q hmem)
  · intro hmem
    rw [fanOutTargets_eq_getD,
      lookupSubs_subscribeReg_ne subs u1 q _ hrkB'] at hmem
    exact hq (mem_lookup_getD_allQueues subs _ q hmem)
  · rw [fanOutTargets_eq_getD, hrkB]

/-- Witness for the amended C1 at a concrete registry and events. -/
theorem fanout_delivers_to_routing_key_only_witness :
    (0 ∉ allQueues ([] : Registry) ∧ "u1" ≠ "u2" ∧ "u1" ≠ "global") ∧
    (0 ∉ fanOutTargets (subscribeReg [] "u1" 0)
        ⟨.message_received, [], some "u2", none, "t2", 2⟩ ∧
      0 ∉ fanOutTargets (subscribeReg [] "u1" 0)
        ⟨.system_notification, [], none, none, "t1", 1⟩ ∧
      fanOutTargets (subscribeReg [] "u1" 0)
          ⟨.system_notification, [], none, none, "t1", 1⟩ =
        (lookupSubs (subscribeReg [] "u1" 0) "global").getD []) :=
  ⟨⟨by decide, by decide, by decide⟩,
   fanout_delivers_to_routing_key_only [] 0 "u1" "u2"
     ⟨.message_received, [], some "u2", none, "t2", 2⟩
     ⟨.system_notification, [], none, none, "t1", 1⟩
     (by decide) (by decide) (by decide) rfl rfl⟩

/-- C6: `unsubscribe` is idempotent — a second call on the already-removed
channel (and any call when the recipient has no entry) is a no-op that
raises nothing — and when removing the channel empties the recipient's
list, the recipient's key is deleted from the registry, preserving the
no-dangling-empty-entries invariant.  The hypotheses state what Python
guarantees for the real registry: `dict` keys are unique and each
`asyncio.Queue` object is registered at most once per recipient. -/
theorem unsubscribe_idempotent_no_dangling (subs : Registry) (uid : String)
    (q : Nat) (hkeys : (subs.map Prod.fst).Nodup)
    (hcount : ∀ qs, lookupSubs subs uid = some qs → qs.count q ≤ 1) :
    unsubscribeReg (unsubscribeReg subs uid q) uid q =
      unsubscribeReg subs uid q ∧
    (lookupSubs subs uid = none → unsubscribeReg subs uid q = subs) ∧
    (lookupSubs subs uid = some [q] →
      lookupSubs (unsubscribeReg subs uid q) uid = none) ∧
    ((∀ p ∈ subs, p.2 ≠ []) → ∀ p ∈ unsubscribeReg subs uid q, p.2 ≠ []) := by
  cases h : lookupSubs subs uid with
  | none =>
      rw [unsubscribeReg_none subs uid q h]
      exact ⟨unsubscribeReg_none subs uid q h, fun _ => rfl,
        fun _ => h, fun hinv => hinv⟩
  | some qs =>
      by_cases hq : q ∈ qs
      · have hc0 : (qs.erase q).count q = 0 := by
          have h1 := hcount qs h
          have h2 := List.count_erase_self q qs
          have h3 := List.count_pos_iff.2 hq
          omega
        have hq' : q ∉ qs.erase q := by
          intro hm
          have := List.count_pos_iff.2 hm
          omega
        rw [unsubscribeReg_mem subs uid q qs h hq]
        by_cases hnil : qs.erase q = []
        · rw [if_pos hnil]
          have hdel : lookupSubs (delSubs subs uid) uid = none :=
            lookupSubs_delSubs_self subs uid hkeys
          refine ⟨unsubscribeReg_none _ uid q hdel, ?_, fun _ => hdel, ?_⟩
          · intro h2
            exact Option.noConfusion h2
          · intro hinv p hp
            exact hinv p (mem_delSubs subs uid p hp)
        · rw [if_neg hnil]
          have hset : lookupSubs (setSubs subs uid (qs.erase q)) uid =
              some (qs.erase q) := lookupSubs_setSubs_self subs uid _
          refine ⟨unsubscribeReg_not_mem _ uid q _ hset hq', ?_, ?_, ?_⟩
          · intro h2
            exact Option.noConfusion h2
          · intro h3
            have hqs : qs = [q] := by injection h3
            rw [hqs] at hnil
            exact absurd (by simp [List.erase_cons_head]) hnil
          · intro hinv p hp
            rcases mem_setSubs subs uid _ p hp with h' | h'
            · rw [h']
              exact hnil
            · exact hinv p h'
      · rw [unsubscribeReg_not_mem subs uid q qs h hq]
        refine ⟨unsubscribeReg_not_mem subs uid q qs h hq, fun _ => rfl, ?_,
          fun hinv => hinv⟩
        intro h3
        have hqs : qs = [q] := by injection h3
        exact absurd (hqs ▸ List.mem_singleton_self q) hq

/-- Witness for C6 at a concrete registry with one subscriber. -/
theorem unsubscribe_idempotent_no_dangling_witness :
    (([("u1", [0])] : Registry).map Prod.fst).Nodup ∧
    (unsubscribeReg (unsubscribeReg [("u1", [0])] "u1" 0) "u1" 0 =
        unsubscribeReg [("u1", [0])] "u1" 0 ∧
      (lookupSubs [("u1", [0])] "u1" = none →
        unsubscribeReg [("u1", [0])] "u1" 0 = [("u1", [0])]) ∧
      (lookupSubs [("u1", [0])] "u1" = some [0] →
        lookupSubs (unsubscribeReg [("u1", [0])] "u1" 0) "u1" = none) ∧
      ((∀ p ∈ ([("u1", [0])] : Registry), p.2 ≠ []) →
        ∀ p ∈ unsubscribeReg [("u1", [0])] "u1" 0, p.2 ≠ [])) :=
  ⟨by decide,
   unsubscribe_idempotent_no_dangling [("u1", [0])] "u1" 0 (by decide)
     (by decide)⟩

/-- C7: on every complete execution of the streaming adapter — whatever
the trace of events, timeouts, stream errors and the eventual disconnect —
the `finally` block unsubscribes the connection's channel, so the
terminated stream's fresh channel `q` is no longer registered anywhere in
the final registry. -/
theorem stream_always_unsubscribes (subs : Registry) (uid : String) (q : Nat)
    (steps : List StreamStep) (hq : q ∉ allQueues subs) :
    q ∉ allQueues (event_generator_final subs uid q steps) := by
  unfold event_generator_final
  cases h : lookupSubs subs uid with
  | none =>
      rw [subscribeReg_none subs uid q h]
      have hl : lookupSubs (setSubs subs uid [q]) uid = some [q] :=
        lookupSubs_setSubs_self subs uid [q]
      rw [unsubscribeReg_mem _ uid q [q] hl (by simp),
        if_pos (by simp [List.erase_cons_head]), delSubs_setSubs]
      intro hmem
      exact hq (allQueues_delSubs subs uid q hmem)
  | some qs =>
      have hqqs : q ∉ qs := fun hm =>
        hq (lookupSubs_mem_allQueues subs uid qs h q hm)
      rw [subscribeReg_some subs uid q qs h]
      have hl : lookupSubs (setSubs subs uid (qs ++ [q])) uid =
          some (qs ++ [q]) := lookupSubs_setSubs_self subs uid (qs ++ [q])
      have herase : (qs ++ [q]).erase q = qs := by
        rw [List.erase_append_right _ hqqs]
        simp [List.erase_cons_head]
      rw [unsubscribeReg_mem _ uid q (qs ++ [q]) hl (by simp), herase]
      by_cases hnil : qs = []
      · rw [if_pos hnil, delSubs_setSubs]
        intro hmem
        exact hq (allQueues_delSubs subs uid q hmem)
      · rw [if_neg hnil, setSubs_setSubs]
        intro hmem
        rcases allQueues_setSubs subs uid qs q hmem with h' | h'
        · exact hqqs h'
        · exact hq h'

/-- Witness for C7: a disconnecting stream for `"u1"` with fresh channel 0
leaves no registration of channel 0 behind. -/
theorem stream_always_unsubscribes_witness :
    (0 ∉ allQueues ([("u2", [1])] : Registry)) ∧
    0 ∉ allQueues
      (event_generator_final [("u2", [1])] "u1" 0 [StreamStep.disconnect]) :=
  ⟨by decide,
   stream_always_unsubscribes [("u2", [1])] "u1" 0 [StreamStep.disconnect]
     (by decide)⟩

/-- C2 (evidence for the code bug): with one subscriber for `"u1"` whose
channel already holds 100 events, publishing an event targeted at `"u1"`
reaches `await queue.put` on a full queue, which suspends the publisher
(`asyncio.Queue.put` blocks when full; it does not raise, so the
`except` arm cannot isolate it) — while with no subscribers the publish
never suspends. -/
theorem publish_full_queue_suspends :
    fanOutTargets [("u1", [0])]
      ⟨.message_received, [], some "u1", none, "t3", 4⟩ = [0] ∧
    putWaits (List.replicate 100
      ⟨.system_notification, [], none, none, "t0", 0⟩) = true ∧
    publishSuspends
      (fun _ => List.replicate 100
        ⟨.system_notification, [], none, none, "t0", 0⟩)
      [("u1", [0])] ⟨.message_received, [], some "u1", none, "t3", 4⟩ = true ∧
    publishSuspends (fun _ => []) []
      ⟨.message_received, [], some "u1", none, "t3", 4⟩ = false := by
  refine ⟨by decide, ?_, ?_, by decide⟩
  · simp [putWaits, queueMaxsize]
  · have ht : fanOutTargets [("u1", [0])]
        ⟨.message_received, [], some "u1", none, "t3", 4⟩ = [0] := by decide
    unfold publishSuspends
    rw [ht]
    simp [putWaits, queueMaxsize]

/-! ### Lemmas about the streaming loop -/

lemma runLoop_append (pre rest : List StreamStep)
    (h : pre.all (fun s => ! s.terminal) = true) :
    runLoop (pre ++ rest) =
      ((runLoop pre).1 ++ (runLoop rest).1, (runLoop rest).2) := by
  induction pre with
  | nil => simp [runLoop]
  | cons s pre ih =>
      simp only [List.all_cons, Bool.and_eq_true] at h
      cases s with
      | ev e => simp [runLoop, ih h.2]
      | timeout ts => simp [runLoop, ih h.2]
      | streamErr => simp [StreamStep.terminal] at h
      | disconnect => simp [StreamStep.terminal] at h

/-- C8: whenever 30 seconds pass with no event arriving on the channel
(the `asyncio.wait_for(queue.get(), timeout=30.0)` timeout fires), the
adapter emits the heartbeat frame `data: {"type": "heartbeat",
"timestamp": …}` and keeps streaming: the frames after the timeout are
exactly those of the rest of the trace, and a trace ending in a timeout
leaves the loop still open. -/
theorem heartbeat_on_timeout (uid : String) (pre post : List StreamStep)
    (ts : String) (h : pre.all (fun s => ! s.terminal) = true) :
    event_generator_output uid (pre ++ .timeout ts :: post) =
      sseLine (connectedJson uid) ::
        ((runLoop pre).1 ++ sseLine (heartbeatJson ts) :: (runLoop post).1) ∧
    (runLoop (pre ++ [.timeout ts])).2 = false := by
  constructor
  · unfold event_generator_output
    rw [runLoop_append pre (.timeout ts :: post) h]
    simp [runLoop]
  · rw [runLoop_append pre [.timeout ts] h]
    simp [runLoop]

/-- Witness for C8: an idle stream (one delivered event, then 30 s of
silence) emits the heartbeat frame and stays open. -/
theorem heartbeat_on_timeout_witness :
    ([StreamStep.ev ⟨.message_received, [], some "u1", none, "t5", 6⟩].all
      (fun s => ! s.terminal) = true) ∧
    (event_generator_output "u1"
        ([StreamStep.ev ⟨.message_received, [], some "u1", none, "t5", 6⟩] ++
          .timeout "T" :: []) =
      sseLine (connectedJson "u1") ::
        ((runLoop [StreamStep.ev
            ⟨.message_received, [], some "u1", none, "t5", 6⟩]).1 ++
          sseLine (heartbeatJson "T") :: (runLoop []).1) ∧
      (runLoop ([StreamStep.ev
          ⟨.message_received, [], some "u1", none, "t5", 6⟩] ++
        [.timeout "T"])).2 = false) :=
  ⟨by decide,
   heartbeat_on_timeout "u1"
     [StreamStep.ev ⟨.message_received, [], some "u1", none, "t5", 6⟩] []
     "T" (by decide)⟩

/-! ### Lemmas about event ids -/

lemma decChar_inj : ∀ d1 < 10, ∀ d2 < 10, decChar d1 = decChar d2 → d1 = d2 := by
  decide

lemma map_decChar_inj : ∀ l1 l2 : List Nat, (∀ x ∈ l1, x < 10) →
    (∀ x ∈ l2, x < 10) → l1.map decChar = l2.map decChar → l1 = l2 := by
  intro l1
  induction l1 with
  | nil =>
      intro l2 _ _ h
      cases l2 with
      | nil => rfl
      | cons d ds => exact absurd h (by simp)
  | cons d ds ih =>
      intro l2 hb1 hb2 h
      cases l2 with
      | nil => exact absurd h (by simp)
      | cons e es =>
          simp only [List.map_cons, List.cons.injEq] at h
          have hd : d = e :=
            decChar_inj d (hb1 d (List.mem_cons_self d ds)) e
              (hb2 e (List.mem_cons_self e es)) h.1
          have ht : ds = es :=
            ih es (fun x hx => hb1 x (List.mem_cons_of_mem d hx))
              (fun x hx => hb2 x (List.mem_cons_of_mem e hx)) h.2
          rw [hd, ht]

lemma decStr_zero_iff (n : Nat) : decStr n = "0" ↔ n = 0 := by
  constructor
  · intro h
    by_contra hn
    rw [decStr, if_neg hn] at h
    have hd : ((Nat.digits 10 n).map decChar).reverse = ['0'] :=
      congrArg String.data h
    have hlen : (Nat.digits 10 n).length = 1 := by
      have := congrArg List.length hd
      simpa using this
    cases hds : Nat.digits 10 n with
    | nil => rw [hds] at hlen; simp at hlen
    | cons d ds =>
        rw [hds] at hlen
        simp only [List.length_cons] at hlen
        have hnil : ds = [] := List.length_eq_zero.1 (by omega)
        rw [hds, hnil] at hd
        simp only [List.map_cons, List.map_nil, List.reverse_cons,
          List.reverse_nil, List.nil_append, List.cons.injEq] at hd
        have hdlt : d < 10 :=
          Nat.digits_lt_base (by norm_num) (hds ▸ List.mem_cons_self d ds)
        have hd0 : d = 0 := decChar_inj d hdlt 0 (by norm_num) hd.1
        have := Nat.ofDigits_digits 10 n
        rw [hds, hnil, hd0] at this
        exact hn (by simpa using this.symm)
  · intro h
    rw [h, decStr, if_pos rfl]

lemma decStr_inj (m n : Nat) (h : decStr m = decStr n) : m = n := by
  by_cases hm : m = 0
  · rw [hm] at h ⊢
    have : decStr n = "0" := by
      rw [← h, decStr, if_pos rfl]
    exact ((decStr_zero_iff n).1 this).symm
  · by_cases hn : n = 0
    · rw [hn] at h
      have : decStr m = "0" := by
        rw [h, decStr, if_pos rfl]
      exact absurd ((decStr_zero_iff m).1 this) hm
    · rw [decStr, if_neg hm, decStr, if_neg hn] at h
      have hd : ((Nat.digits 10 m).map decChar).reverse =
          ((Nat.digits 10 n).map decChar).reverse := congrArg String.data h
      have hmap : (Nat.digits 10 m).map decChar = (Nat.digits 10 n).map decChar :=
        List.reverse_injective hd
      have hdig : Nat.digits 10 m = Nat.digits 10 n :=
        map_decChar_inj _ _
          (fun x hx => Nat.digits_lt_base (by norm_num) hx)
          (fun x hx => Nat.digits_lt_base (by norm_num) hx) hmap
      exact Nat.digits_inj_iff.1 hdig

lemma append_ne_of_getElem_ne (a b x y : List Char) (i : Nat)
    (h1 : i < a.length) (h2 : i < b.length) (hne : a[i]? ≠ b[i]?) :
    a ++ x ≠ b ++ y := by
  intro h
  apply hne
  have hx := congrArg (fun l => l[i]?) h
  simpa [List.getElem?_append_left h1, List.getElem?_append_left h2] using hx

lemma event_id_inj (e1 e2 : NotificationEvent) (h : e1.event_id = e2.event_id) :
    e1.event_type = e2.event_type ∧ e1.timestampMs = e2.timestampMs := by
  obtain ⟨t1, d1, u1, c1, ts1, m1⟩ := e1
  obtain ⟨t2, d2, u2, c2, ts2, m2⟩ := e2
  simp only [NotificationEvent.event_id] at h
  have hd : (NotificationType.value t1).data ++
      ("_".data ++ (decStr m1).data) =
      (NotificationType.value t2).data ++ ("_".data ++ (decStr m2).data) := by
    have hh := congrArg String.data h
    simpa [String.data_append, List.append_assoc] using hh
  have ht : t1 = t2 := by
    cases t1 <;> cases t2 <;>
      first
        | rfl
        | exact absurd hd
            (append_ne_of_getElem_ne _ _ _ _ 0 (by decide) (by decide) (by decide))
        | exact absurd hd
            (append_ne_of_getElem_ne _ _ _ _ 5 (by decide) (by decide) (by decide))
  subst ht
  refine ⟨rfl, ?_⟩
  have hdm : (decStr m1).data = (decStr m2).data :=
    List.append_cancel_left (List.append_cancel_left hd)
  have hms : decStr m1 = decStr m2 := congrArg List.asString hdm
  exact decStr_inj m1 m2 hms

/-- C3 counterexample: two distinct events (same type, same creation
millisecond, different payloads) receive the same `event_id` — the id
`f"{event_type}_{ms}"` is reused, contrary to the claim that ids of any
two events constructed in one process lifetime are distinct. -/
theorem event_id_collision_counterexample :
    (⟨.message_received, [("a", "1")], none, none, "t9", 5⟩ :
        NotificationEvent) ≠
      ⟨.message_received, [("b", "2")], none, none, "t9", 5⟩ ∧
    NotificationEvent.event_id
        ⟨.message_received, [("a", "1")], none, none, "t9", 5⟩ =
      NotificationEvent.event_id
        ⟨.message_received, [("b", "2")], none, none, "t9", 5⟩ :=
  ⟨by decide, rfl⟩

/-- C3 (amended): an event's `id` is determined by exactly its type and
its creation millisecond — two events of the same type constructed in the
same millisecond share an id, and events differing in type or in creation
millisecond always have distinct ids. -/
theorem event_id_distinct_of_type_or_ms_ne (e1 e2 : NotificationEvent)
    (h : e1.event_type ≠ e2.event_type ∨ e1.timestampMs ≠ e2.timestampMs) :
    e1.event_id ≠ e2.event_id := by
  intro hid
  rcases event_id_inj e1 e2 hid with ⟨ht, hm⟩
  rcases h with h | h
  · exact h ht
  · exact h hm

/-- Witness for the amended C3: events of different types (same
millisecond) have distinct ids. -/
theorem event_id_distinct_of_type_or_ms_ne_witness :
    ((⟨.message_received, [], none, none, "t", 5⟩ :
        NotificationEvent).event_type ≠
      (⟨.user_joined, [], none, none, "t", 5⟩ :
        NotificationEvent).event_type ∨
      (⟨.message_received, [], none, none, "t", 5⟩ :
        NotificationEvent).timestampMs ≠
      (⟨.user_joined, [], none, none, "t", 5⟩ :
        NotificationEvent).timestampMs) ∧
    (⟨.message_received, [], none, none, "t", 5⟩ :
        NotificationEvent).event_id ≠
      (⟨.user_joined, [], none, none, "t", 5⟩ :
        NotificationEvent).event_id :=
  ⟨Or.inl (by decide),
   event_id_distinct_of_type_or_ms_ne
     ⟨.message_received, [], none, none, "t", 5⟩
     ⟨.user_joined, [], none, none, "t", 5⟩ (Or.inl (by decide))⟩
